import Mathlib

/-!
# Verification of the dividend projection engine (`src/app.py`)

A shallow embedding of the projection/annuity engine of the dividend
calculator. Monetary quantities and share counts are modelled as exact
rationals (`ℚ`); the Python floats of the source become exact arithmetic.
Python's `int(x)` truncation toward zero is modelled by `truncQ`.
A Python `ZeroDivisionError` (caught by the app's top-level handler and
reported with `st.error`) is modelled by `Except.error`.

Source correspondence (line numbers refer to `src/app.py`):
* `freq_map` (lines 105-111), `div_per_payout_krw` / `is_weekly_mode`
  (lines 133-141);
* the tab-1 simulation loop (lines 199-252): `simStep`, `simState`,
  `project`;
* the tab-2 goal solver (lines 304-334): `solveGoal`;
* `get_market_analysis` (lines 27-58): `estimateGrowth`.
-/

/-- Python `int(x)` for our nonnegative-or-negative rationals: truncation
toward zero. -/
def truncQ (q : ℚ) : ℤ := if 0 ≤ q then ⌊q⌋ else ⌈q⌉

/-- One entry of `freq_map` (src/app.py lines 105-111): yearly payout count
and simulation interval in months. -/
structure FreqSpec where
  count : ℕ
  interval : ℕ
deriving Repr, DecidableEq

/-- The five payout-frequency choices of the selectbox
(src/app.py lines 98-102). -/
inductive Freq
  | weekly
  | monthly
  | quarterly
  | semiannual
  | annual
deriving Repr, DecidableEq

/-- `freq_map` of src/app.py lines 105-111. -/
def freqMap : Freq → FreqSpec
  | .weekly => ⟨52, 1⟩
  | .monthly => ⟨12, 1⟩
  | .quarterly => ⟨4, 3⟩
  | .semiannual => ⟨2, 6⟩
  | .annual => ⟨1, 12⟩

/-- `is_weekly_mode` (src/app.py lines 135-141): the weekly branch is taken
exactly when the selected frequency has 52 payouts per year. -/
def isWeeklyMode (f : Freq) : Bool := (freqMap f).count == 52

/-- `div_per_payout_krw` (src/app.py lines 133-141): the annual dividend
amount divided by the yearly payout count, except that the weekly selection
is approximated as a monthly-equivalent amount (annual / 12). -/
def divPerPayoutKrw (annualDivKrw : ℚ) (f : Freq) : ℚ :=
  if (freqMap f).count = 52 then annualDivKrw / 12
  else annualDivKrw / ((freqMap f).count : ℚ)

/-- The inputs, other than initial capital / starting price / horizon, that
the tab-1 simulation loop reads. `changeRate` is `real_change_rate` and
`taxRate` is `tax_rate`, both in percent, as in the source. -/
structure SimConfig where
  divPerPayout : ℚ
  weekly : Bool
  interval : ℕ
  changeRate : ℚ
  taxRate : ℚ
  monthlyContrib : ℚ
deriving Repr, DecidableEq

/-- Builds the `SimConfig` the way the app does from a frequency selection
and the annual dividend amount (src/app.py lines 133-141 and the loop's
reads of `selected_freq["interval"]`). -/
def mkSimConfig (f : Freq) (annualDivKrw changeRate taxRate monthlyContrib : ℚ) :
    SimConfig :=
  { divPerPayout := divPerPayoutKrw annualDivKrw f
    weekly := isWeeklyMode f
    interval := (freqMap f).interval
    changeRate := changeRate
    taxRate := taxRate
    monthlyContrib := monthlyContrib }

/-- The loop state of the tab-1 simulation (src/app.py lines 201-209):
`current_shares`, `current_price`, `total_invested`, `accumulated_div`,
`break_even_month`, plus `gross` recording the `gross_div` local of the
iteration that produced this state (0 at month 0, where the loop pays
nothing). -/
structure SimState where
  shares : ℚ
  price : ℚ
  invested : ℚ
  accDiv : ℚ
  gross : ℚ
  breakEven : Option ℕ
deriving Repr, DecidableEq

/-- One iteration of the tab-1 simulation loop for month `i ≥ 1`
(src/app.py lines 220-251), in the source's order: gross dividend by the
emission rule, net dividend accumulated, break-even check against
`total_invested` *before* this month's contribution, price growth,
reinvestment purchase at the post-growth price, then the contribution is
added to `total_invested`. -/
def simStep (cfg : SimConfig) (i : ℕ) (s : SimState) : SimState :=
  let grossDiv : ℚ :=
    if cfg.weekly then s.shares * cfg.divPerPayout
    else if i % cfg.interval = 0 then s.shares * cfg.divPerPayout else 0
  let netDiv := grossDiv * (1 - cfg.taxRate / 100)
  let accDiv := s.accDiv + netDiv
  let breakEven :=
    match s.breakEven with
    | some m => some m
    | none => if s.invested ≤ accDiv then some i else none
  let price := s.price * (1 + cfg.changeRate / 100)
  let buyAmount := netDiv + cfg.monthlyContrib
  let shares := s.shares + buyAmount / price
  let invested := s.invested + cfg.monthlyContrib
  ⟨shares, price, invested, accDiv, grossDiv, breakEven⟩

/-- The simulation state after `i` months. Month 0 is the initial state of
src/app.py lines 201-209 (shares bought at the starting price, nothing
accumulated, no break-even). -/
def simState (cfg : SimConfig) (init p0 : ℚ) : ℕ → SimState
  | 0 => ⟨init / p0, p0, init, 0, 0, none⟩
  | i + 1 => simStep cfg (i + 1) (simState cfg init p0 i)

/-- The recorded asset value of month `i`: `int(current_shares * current_price)`
(src/app.py lines 215 and 249). -/
def assetAt (cfg : SimConfig) (init p0 : ℚ) (i : ℕ) : ℤ :=
  truncQ ((simState cfg init p0 i).shares * (simState cfg init p0 i).price)

/-- Output of a completed simulation run: `data_asset`, `data_invested`
and `break_even_month` of src/app.py lines 206-252. -/
structure ProjectionResult where
  assetSeries : List ℤ
  investedSeries : List ℚ
  breakEvenMonth : Option ℕ
deriving Repr, DecidableEq

/-- The series and break-even month produced by a run that raises no
exception. -/
def projectResult (cfg : SimConfig) (init p0 : ℚ) (n : ℕ) : ProjectionResult :=
  { assetSeries := (List.range (n + 1)).map (assetAt cfg init p0)
    investedSeries := (List.range (n + 1)).map fun i => (simState cfg init p0 i).invested
    breakEvenMonth := (simState cfg init p0 n).breakEven }

/-- The tab-1 projection (src/app.py lines 199-252). The two divisions of
the source are `initial_invest_krw / price_krw` (line 201) and
`buy_amount / current_price` at the post-growth price of each month
`i = 1..n` (line 245); a zero divisor raises `ZeroDivisionError` in Python,
which the app's top-level handler (lines 358-360) reports to the user, so
no result is produced. -/
def project (cfg : SimConfig) (init p0 : ℚ) (n : ℕ) : Except String ProjectionResult :=
  if p0 = 0 then .error "ZeroDivisionError: division by zero"
  else if ((List.range n).map (· + 1)).any
      (fun i => decide ((simState cfg init p0 i).price = 0)) then
    .error "ZeroDivisionError: division by zero"
  else .ok (projectResult cfg init p0 n)

/-- The break-even condition of month `m ≥ 1` (src/app.py line 237):
accumulated net dividends including month `m`'s net dividend, compared
against `total_invested` as it stands before month `m`'s contribution,
i.e. the invested total of the month-`m-1` state. -/
def breakEvenCond (cfg : SimConfig) (init p0 : ℚ) (m : ℕ) : Bool :=
  decide ((simState cfg init p0 (m - 1)).invested ≤ (simState cfg init p0 m).accDiv)

/-- Independent replay of the break-even search: the smallest month
`m ∈ 1..n` satisfying `breakEvenCond` (the list `[1, 2, ..., n]` is
ascending, so `List.find?` returns the least such month), `none` when no
month satisfies it. -/
def firstBreakEven (cfg : SimConfig) (init p0 : ℚ) (n : ℕ) : Option ℕ :=
  (((List.range n).map (· + 1)).find? (breakEvenCond cfg init p0))

/-- Result record of the tab-2 goal solver (src/app.py lines 304-334). -/
structure GoalPlan where
  neededShares : ℚ
  requiredFutureCapital : ℚ
  requiredMonthlyContribution : ℚ
  estFuturePrice : ℚ
  estFutureAnnualDps : ℚ
deriving Repr, DecidableEq

instance : Inhabited GoalPlan := ⟨⟨0, 0, 0, 0, 0⟩⟩

/-- How a `solveGoal` computation can end without producing a plan; both
outcomes are reported to the user and are non-fatal to the host. -/
inductive SolveError
  /-- The dedicated guard of src/app.py lines 318-319: the projected future
  annual dividend per share is ≤ 0, reported with its own `st.error`
  message. -/
  | estimateNotPositive
  /-- A `ZeroDivisionError` raised by one of the solver's divisions
  (src/app.py lines 322, 327, 332 or 334), caught and reported by the
  top-level handler (lines 358-360). -/
  | zeroDivision
deriving Repr, DecidableEq

/-- The tab-2 goal solver (src/app.py lines 304-334). `targetMonthly` is the
target monthly income in won (`target_monthly_div_input * 10000`). When the
projected future annual dividend per share is ≤ 0 the app reports an error
(`st.error`, line 319) and computes no plan: `SolveError.estimateNotPositive`.
Past that guard Python raises `ZeroDivisionError` — caught and reported by
the top-level handler, again with no plan — when the needed-shares divisor
`est_future_annual_dps * (1 - tax_rate/100)` is 0 (line 322, e.g. a 100%
tax rate), when `price_krw` is 0 (line 327), and in the annuity inversion
when the horizon is 0 (line 332) or the denominator
`(1 + rate)^horizon - 1` is 0 (line 334); the checks below mirror those
divisions in source order. -/
def solveGoal (priceKrw currentAnnualDps changeRate taxRate : ℚ) (n : ℕ)
    (targetMonthly : ℚ) : Except SolveError GoalPlan :=
  let decayFactor := (1 + changeRate / 100) ^ n
  let estFuturePrice := priceKrw * decayFactor
  let estFutureAnnualDps := currentAnnualDps * decayFactor
  let targetAnnualDivWon := targetMonthly * 12
  if estFutureAnnualDps ≤ 0 then .error .estimateNotPositive
  else if estFutureAnnualDps * (1 - taxRate / 100) = 0 then .error .zeroDivision
  else if priceKrw = 0 then .error .zeroDivision
  else
    let neededShares := targetAnnualDivWon / (estFutureAnnualDps * (1 - taxRate / 100))
    let neededAssetFuture := neededShares * estFuturePrice
    let monthlyYieldRate := (currentAnnualDps / 12) / priceKrw * 100
    let totalMonthlyReturnRate := (changeRate + monthlyYieldRate) / 100
    if totalMonthlyReturnRate = 0 then
      if n = 0 then .error .zeroDivision
      else .ok ⟨neededShares, neededAssetFuture, neededAssetFuture / (n : ℚ),
        estFuturePrice, estFutureAnnualDps⟩
    else if (1 + totalMonthlyReturnRate) ^ n - 1 = 0 then .error .zeroDivision
    else .ok ⟨neededShares, neededAssetFuture,
      neededAssetFuture * totalMonthlyReturnRate /
        ((1 + totalMonthlyReturnRate) ^ n - 1),
      estFuturePrice, estFutureAnnualDps⟩

/-- The final recorded asset value of a run, 0 when the run failed. -/
def finalAssetOf (e : Except String ProjectionResult) : ℤ :=
  match e with
  | .ok r => r.assetSeries.getLastD 0
  | .error _ => 0

/-! ## Basic lemmas about the simulation -/

theorem simState_price (cfg : SimConfig) (init p0 : ℚ) (i : ℕ) :
    (simState cfg init p0 i).price = p0 * (1 + cfg.changeRate / 100) ^ i := by
  induction i with
  | zero => simp [simState]
  | succ k ih => simp [simState, simStep, ih, pow_succ]; ring

theorem simState_invested (cfg : SimConfig) (init p0 : ℚ) (i : ℕ) :
    (simState cfg init p0 i).invested = init + i * cfg.monthlyContrib := by
  induction i with
  | zero => simp [simState]
  | succ k ih => simp [simState, simStep, ih]; ring

theorem getLastD_map_range {α : Type} (f : ℕ → α) (n : ℕ) (d : α) :
    ((List.range (n + 1)).map f).getLastD d = f n := by
  rw [List.range_succ, List.map_append]
  exact List.getLastD_concat _ _ _

theorem project_eq_ok (cfg : SimConfig) (init p0 : ℚ) (n : ℕ)
    (hp : p0 ≠ 0) (hg : 1 + cfg.changeRate / 100 ≠ 0) :
    project cfg init p0 n = .ok (projectResult cfg init p0 n) := by
  have hall : (((List.range n).map (· + 1)).any
      fun i => decide ((simState cfg init p0 i).price = 0)) = false := by
    rw [List.any_eq_false]
    intro x hx
    simp only [List.mem_map, List.mem_range] at hx
    obtain ⟨i, _, rfl⟩ := hx
    simp only [decide_eq_true_eq, simState_price]
    exact mul_ne_zero hp (pow_ne_zero _ hg)
  rw [project, if_neg hp, hall]
  rfl

theorem simState_breakEven (cfg : SimConfig) (init p0 : ℚ) (n : ℕ) :
    (simState cfg init p0 n).breakEven = firstBreakEven cfg init p0 n := by
  induction n with
  | zero => simp [simState, firstBreakEven]
  | succ k ih =>
    have hr : (List.range (k + 1)).map (· + 1) =
        ((List.range k).map (· + 1)) ++ [k + 1] := by
      rw [List.range_succ, List.map_append]
      rfl
    rw [firstBreakEven, hr, List.find?_append, ← firstBreakEven, ← ih]
    have hacc : (simState cfg init p0 (k + 1)).accDiv =
        (simState cfg init p0 k).accDiv +
          (if cfg.weekly then (simState cfg init p0 k).shares * cfg.divPerPayout
            else if (k + 1) % cfg.interval = 0 then
              (simState cfg init p0 k).shares * cfg.divPerPayout
            else 0) * (1 - cfg.taxRate / 100) := rfl
    have hcond : breakEvenCond cfg init p0 (k + 1) =
        decide ((simState cfg init p0 k).invested ≤ (simState cfg init p0 (k + 1)).accDiv) := by
      simp [breakEvenCond]
    cases hsb : (simState cfg init p0 k).breakEven with
    | some m =>
      show (simStep cfg (k + 1) (simState cfg init p0 k)).breakEven = _
      simp [simStep, hsb]
    | none =>
      show (simStep cfg (k + 1) (simState cfg init p0 k)).breakEven = _
      by_cases hle : (simState cfg init p0 k).invested ≤ (simState cfg init p0 (k + 1)).accDiv
      · rw [List.find?_cons_of_pos _ (by rw [hcond]; exact decide_eq_true hle)]
        rw [hacc] at hle
        simp only [simStep, hsb, Option.none_or]
        exact if_pos hle
      · rw [List.find?_cons_of_neg _ (by rw [hcond]; simpa using hle)]
        rw [hacc] at hle
        simp only [simStep, hsb, Option.none_or]
        exact if_neg hle

/-! ## Growth estimator (`get_market_analysis`, src/app.py lines 27-58) -/

/-- One (date, close) sample of the external price history. `day` counts
days from a fixed epoch, `month` is the calendar-month index the day falls
in; a provider history is chronologically ordered. -/
structure PriceSample where
  day : ℕ
  month : ℕ
  close : ℚ
deriving Repr, DecidableEq, Inhabited

/-- `history['Close'].resample('ME').last()` restricted to months that have
data: the last sample of each calendar month, in chronological order,
tagged with its calendar month. -/
def monthlyLast (l : List PriceSample) : List (ℕ × ℚ) :=
  (l.foldl (fun acc s =>
    match acc with
    | [] => [(s.month, s.close)]
    | (m, _) :: t =>
      if m = s.month then (s.month, s.close) :: t
      else (s.month, s.close) :: acc) []).reverse

/-- `monthly_prices.pct_change().dropna()`: the pandas resampled series has
one entry per calendar month of the covered range with NaN for months
without samples, so `pct_change` produces a (non-NaN) simple change exactly
between samples of adjacent calendar months and `dropna` keeps exactly
those. -/
def monthlyReturns : List (ℕ × ℚ) → List ℚ
  | (m1, p1) :: (m2, p2) :: rest =>
    if m2 = m1 + 1 then (p2 / p1 - 1) :: monthlyReturns ((m2, p2) :: rest)
    else monthlyReturns ((m2, p2) :: rest)
  | _ => []

/-- Arithmetic mean of a list of rationals (`Series.mean`). -/
def meanQ (l : List ℚ) : ℚ := l.sum / (l.length : ℚ)

/-- Output of the growth estimate of `get_market_analysis`:
`avg_monthly_change` (percent), `is_data_short`, `actual_years`. -/
structure GrowthResult where
  rate : ℚ
  insufficient : Bool
  actualYears : ℚ
deriving Repr, DecidableEq

/-- The growth-estimating part of `get_market_analysis`
(src/app.py lines 31-58): `history` is the provider's series for the
requested period, `maxHistory` the one for `period="max"` used as the
fallback of line 39 when `history` is empty. -/
def estimateGrowth (history maxHistory : List PriceSample) (periodYears : ℕ) :
    GrowthResult :=
  let used := if history.isEmpty then maxHistory else history
  if used.isEmpty then { rate := 0, insufficient := true, actualYears := 0 }
  else
    let daysDiff : ℚ := ((used.getLastD default).day : ℚ) - ((used.headD default).day : ℚ)
    let actualYears := daysDiff / 365
    let insufficient := history.isEmpty || decide (actualYears < (periodYears : ℚ) * (8 / 10))
    { rate := meanQ (monthlyReturns (monthlyLast used)) * 100
      insufficient := insufficient
      actualYears := actualYears }

/-! ## A `find?`-over-`[1..n]` characterization, used for break-even -/

theorem find?_one_to_n_eq_some (p : ℕ → Bool) (n m : ℕ) :
    ((List.range n).map (· + 1)).find? p = some m ↔
      1 ≤ m ∧ m ≤ n ∧ p m = true ∧ ∀ j, 1 ≤ j → j < m → p j = false := by
  induction n generalizing m with
  | zero =>
    simp only [List.range_zero, List.map_nil, List.find?_nil]
    constructor
    · rintro ⟨⟩
    · rintro ⟨h1, h2, -⟩; omega
  | succ k ih =>
    rw [show (List.range (k + 1)).map (· + 1) = ((List.range k).map (· + 1)) ++ [k + 1] from
      by rw [List.range_succ, List.map_append]; rfl]
    rw [List.find?_append]
    cases hf : ((List.range k).map (· + 1)).find? p with
    | some mm =>
      obtain ⟨h1, h2, h3, h4⟩ := (ih mm).mp hf
      rw [Option.or_some]
      constructor
      · rintro h
        injection h with h
        subst h
        exact ⟨h1, h2.trans (Nat.le_succ k), h3, h4⟩
      · rintro ⟨g1, g2, g3, g4⟩
        have : m = mm := by
          rcases lt_trichotomy m mm with hlt | heq | hgt
          · have := h4 m g1 hlt
            rw [g3] at this
            cases this
          · exact heq
          · have := g4 mm h1 hgt
            rw [h3] at this
            cases this
        rw [this]
    | none =>
      have hb : ∀ j, 1 ≤ j → j ≤ k → p j = false := by
        intro j hj1 hj2
        have hin : j ∈ (List.range k).map (· + 1) := by
          simp only [List.mem_map, List.mem_range]
          exact ⟨j - 1, by omega, by omega⟩
        have := List.find?_eq_none.mp hf j hin
        simpa using this
      rw [Option.none_or]
      by_cases hp1 : p (k + 1) = true
      · rw [List.find?_cons_of_pos _ hp1]
        constructor
        · rintro h
          injection h with h
          subst h
          exact ⟨by omega, Nat.le_refl _, hp1, fun j hj1 hj2 => hb j hj1 (by omega)⟩
        · rintro ⟨g1, g2, g3, g4⟩
          have : m = k + 1 := by
            by_contra hne
            have hmk : m ≤ k := by omega
            have := hb m g1 hmk
            rw [g3] at this
            cases this
          rw [this]
      · rw [List.find?_cons_of_neg _ (by simpa using hp1)]
        constructor
        · rintro ⟨⟩
        · rintro ⟨g1, g2, g3, g4⟩
          exfalso
          rcases Nat.eq_or_lt_of_le g2 with heq | hlt
          · rw [heq] at g3
            exact hp1 g3
          · have := hb m g1 (by omega)
            rw [g3] at this
            cases this

theorem find?_one_to_n_eq_none (p : ℕ → Bool) (n : ℕ) :
    ((List.range n).map (· + 1)).find? p = none ↔
      ∀ m, 1 ≤ m → m ≤ n → p m = false := by
  rw [List.find?_eq_none]
  constructor
  · intro h m h1 h2
    have hin : m ∈ (List.range n).map (· + 1) := by
      simp only [List.mem_map, List.mem_range]
      exact ⟨m - 1, by omega, by omega⟩
    simpa using h m hin
  · intro h x hx
    simp only [List.mem_map, List.mem_range] at hx
    obtain ⟨i, hi, rfl⟩ := hx
    simp [h (i + 1) (by omega) (by omega)]

/-! ## Claim theorems -/

/-- C1: the break-even month recorded by the simulation equals the
independent replay `firstBreakEven`, and `firstBreakEven` is `some m`
exactly when `m` is the smallest month in `1..n` whose accumulated net
dividends (including month `m`'s net dividend) reach `totalInvested` as it
stands before month `m`'s contribution, and `none` exactly when no month
in `1..n` satisfies that condition. -/
theorem claim_C1_break_even_least (cfg : SimConfig) (init p0 : ℚ) (n : ℕ) :
    (projectResult cfg init p0 n).breakEvenMonth = firstBreakEven cfg init p0 n ∧
    (∀ m, firstBreakEven cfg init p0 n = some m ↔
      1 ≤ m ∧ m ≤ n ∧ breakEvenCond cfg init p0 m = true ∧
        ∀ j, 1 ≤ j → j < m → breakEvenCond cfg init p0 j = false) ∧
    (firstBreakEven cfg init p0 n = none ↔
      ∀ m, 1 ≤ m → m ≤ n → breakEvenCond cfg init p0 m = false) := by
  refine ⟨simState_breakEven cfg init p0 n, fun m => ?_, ?_⟩
  · exact find?_one_to_n_eq_some _ n m
  · exact find?_one_to_n_eq_none _ n

/-- C2: for every non-weekly payout frequency, the gross dividend of a
simulated month `i ≥ 1` equals the shares held at the end of month `i - 1`
(before month `i`'s growth) times the per-payout amount exactly when
`i % intervalMonths = 0`, and 0 for every other month; month 0 pays no
dividend at all. -/
theorem claim_C2_emission_rule (f : Freq) (hf : f ≠ Freq.weekly)
    (annual changeRate taxRate contrib init p0 : ℚ) (i : ℕ) (hi : 1 ≤ i) :
    (simState (mkSimConfig f annual changeRate taxRate contrib) init p0 i).gross =
      (if i % (freqMap f).interval = 0 then
        (simState (mkSimConfig f annual changeRate taxRate contrib) init p0 (i - 1)).shares *
          divPerPayoutKrw annual f
      else 0) ∧
    (simState (mkSimConfig f annual changeRate taxRate contrib) init p0 0).gross = 0 := by
  have hw : isWeeklyMode f = false := by
    cases f
    · exact absurd rfl hf
    all_goals rfl
  refine ⟨?_, rfl⟩
  obtain ⟨k, rfl⟩ : ∃ k, i = k + 1 := ⟨i - 1, by omega⟩
  show (simStep (mkSimConfig f annual changeRate taxRate contrib) (k + 1)
    (simState (mkSimConfig f annual changeRate taxRate contrib) init p0 k)).gross = _
  simp only [simStep, mkSimConfig, hw, Bool.false_eq_true, if_false,
    Nat.add_sub_cancel]

/-- C5 as stated is false: with price 10000, annual dividend per share
12000, zero growth, horizon 12, target 1,000,000 and a 100% tax rate, the
projected future annual dividend per share is 12000 > 0, yet the solver
fails anyway — the needed-shares divisor
`est_future_annual_dps * (1 - tax_rate/100)` is 0, so src/app.py line 322
raises `ZeroDivisionError`, reported by the top-level handler with no
`GoalPlan` — so failure is not *exactly* the `≤ 0` condition. -/
theorem claim_C5_counterexample :
    solveGoal 10000 12000 0 100 12 1000000 =
      Except.error SolveError.zeroDivision ∧
    ¬((12000 : ℚ) * (1 + 0 / 100) ^ 12 ≤ 0) := by
  constructor
  · norm_num [solveGoal]
  · norm_num

/-- C5 (amended): the solver's dedicated reported error — the
estimate-not-positive message of src/app.py line 319 — occurs exactly when
the projected future annual dividend per share
`currentAnnualDividendPerShare * (1 + growthRatePerPeriod/100)^horizonMonths`
is ≤ 0, and whenever that condition holds no `GoalPlan` (hence no infinite
or negative share count) is ever returned. Failure as a whole, however, is
not exclusive to that condition: division-by-zero inputs (a 100% tax rate,
a zero price, a zero annuity denominator or a zero horizon) also end in a
reported, non-fatal error with no plan. -/
theorem claim_C5_estimate_zero_error (priceKrw dps changeRate taxRate : ℚ)
    (n : ℕ) (tgt : ℚ) :
    (solveGoal priceKrw dps changeRate taxRate n tgt =
        Except.error SolveError.estimateNotPositive ↔
      dps * (1 + changeRate / 100) ^ n ≤ 0) ∧
    ∀ plan : GoalPlan, dps * (1 + changeRate / 100) ^ n ≤ 0 →
      solveGoal priceKrw dps changeRate taxRate n tgt ≠ Except.ok plan := by
  constructor
  · simp only [solveGoal]
    split_ifs with h1 h2 h3 h4 h5 h6 <;> simp_all
  · intro plan hle
    simp only [solveGoal]
    rw [if_pos hle]
    simp

/-- C6: for a starting unit price of 0, `project` fails fast with the
reported division-by-zero error and never produces a `ProjectionResult`. -/
theorem claim_C6_zero_start_price (cfg : SimConfig) (init : ℚ) (n : ℕ) :
    project cfg init 0 n = Except.error "ZeroDivisionError: division by zero" := by
  simp [project]

/-- C7: the per-payout amount is the annual dividend divided by the yearly
payout count for monthly/quarterly/semiannual/annual, but for the weekly
selection (52 payouts per year) it is the annual dividend divided by 12. -/
theorem claim_C7_per_payout (annual : ℚ) (f : Freq) :
    divPerPayoutKrw annual f =
      (if f = Freq.weekly then annual / 12
       else annual / ((freqMap f).count : ℚ)) := by
  cases f <;> rfl

/-- C8: the estimated growth rate is the arithmetic mean of the simple
month-over-month changes of the price series resampled to the last price of
each calendar month (as percent), computed on the requested-period history
or, when that is empty, on the maximum-history fallback; empty price
history (even after the fallback) yields rate 0, the insufficiency flag,
and actual years 0. -/
theorem claim_C8_growth_estimate (history maxHistory : List PriceSample) (y : ℕ) :
    (estimateGrowth history maxHistory y).rate =
      meanQ (monthlyReturns (monthlyLast
        (if history.isEmpty then maxHistory else history))) * 100 ∧
    estimateGrowth ([] : List PriceSample) ([] : List PriceSample) y =
      ⟨0, true, 0⟩ := by
  constructor
  · by_cases h1 : history.isEmpty
    · by_cases h2 : maxHistory.isEmpty
      · rw [List.isEmpty_iff] at h2
        simp [estimateGrowth, h1, h2, monthlyLast, monthlyReturns, meanQ]
      · simp [estimateGrowth, h1, h2]
    · simp [estimateGrowth, h1]
  · rfl

/-- C9: for every horizon `n ≥ 1`, a completed projection has asset and
invested series both of length `n + 1`. -/
theorem claim_C9_series_lengths (cfg : SimConfig) (init p0 : ℚ) (n : ℕ)
    (_hn : 1 ≤ n) (hp : p0 ≠ 0) (hg : 1 + cfg.changeRate / 100 ≠ 0) :
    (project cfg init p0 n).map
      (fun r => (r.assetSeries.length, r.investedSeries.length)) =
      Except.ok (n + 1, n + 1) := by
  rw [project_eq_ok cfg init p0 n hp hg]
  simp [projectResult, Except.map]

theorem claim_C9_witness :
    (project (mkSimConfig Freq.monthly 1200 0 15 500000) 10000000 10000 1).map
      (fun r => (r.assetSeries.length, r.investedSeries.length)) =
      Except.ok (2, 2) :=
  claim_C9_series_lengths _ 10000000 10000 1 (by norm_num) (by norm_num)
    (by norm_num [mkSimConfig])

theorem weekly_monthly_simState (annual changeRate taxRate contrib init p0 : ℚ)
    (i : ℕ) :
    simState (mkSimConfig Freq.weekly annual changeRate taxRate contrib) init p0 i =
    simState (mkSimConfig Freq.monthly annual changeRate taxRate contrib) init p0 i := by
  induction i with
  | zero => rfl
  | succ k ih =>
    show simStep _ (k + 1) _ = simStep _ (k + 1) _
    rw [ih]
    simp [simStep, mkSimConfig, isWeeklyMode, freqMap, divPerPayoutKrw, Nat.mod_one]

/-- C10: with identical remaining inputs, the weekly selection produces a
`ProjectionResult` identical to the monthly selection (both pay
`annualDividendAmount / 12` every simulated month). -/
theorem claim_C10_weekly_equals_monthly (annual changeRate taxRate contrib init p0 : ℚ)
    (n : ℕ) :
    project (mkSimConfig Freq.weekly annual changeRate taxRate contrib) init p0 n =
    project (mkSimConfig Freq.monthly annual changeRate taxRate contrib) init p0 n := by
  have ha : assetAt (mkSimConfig Freq.weekly annual changeRate taxRate contrib) init p0 =
      assetAt (mkSimConfig Freq.monthly annual changeRate taxRate contrib) init p0 := by
    funext i
    unfold assetAt
    rw [weekly_monthly_simState]
  simp only [project, projectResult, weekly_monthly_simState, ha]

theorem claim_C2_witness :
    (simState (mkSimConfig Freq.quarterly 1200 0 15 0) 10000 100 3).gross =
      (if 3 % (freqMap Freq.quarterly).interval = 0 then
        (simState (mkSimConfig Freq.quarterly 1200 0 15 0) 10000 100 (3 - 1)).shares *
          divPerPayoutKrw 1200 Freq.quarterly
      else 0) ∧
    (simState (mkSimConfig Freq.quarterly 1200 0 15 0) 10000 100 0).gross = 0 :=
  claim_C2_emission_rule Freq.quarterly (by decide) 1200 0 15 0 10000 100 3 (by decide)

/-- The solved monthly contribution always follows the annuity inversion of
src/app.py lines 326-334, with the total monthly return rate rewritten as
`growthRatePerPeriod/100 + (annualDps/12)/price`. -/
theorem solveGoal_savings_formula (priceKrw dps changeRate taxRate : ℚ) (n : ℕ)
    (tgt : ℚ) (plan : GoalPlan)
    (h : solveGoal priceKrw dps changeRate taxRate n tgt = Except.ok plan) :
    plan.requiredMonthlyContribution =
      if changeRate / 100 + dps / 12 / priceKrw = 0 then
        plan.requiredFutureCapital / (n : ℚ)
      else
        plan.requiredFutureCapital * (changeRate / 100 + dps / 12 / priceKrw) /
          ((1 + (changeRate / 100 + dps / 12 / priceKrw)) ^ n - 1) := by
  have hr : (changeRate + dps / 12 / priceKrw * 100) / 100 =
      changeRate / 100 + dps / 12 / priceKrw := by ring
  rcases plan with ⟨ns, rf, rm, fp, fd⟩
  simp only [solveGoal] at h
  rcases em (dps * (1 + changeRate / 100) ^ n ≤ 0) with h1 | h1
  · rw [if_pos h1] at h
    cases h
  rw [if_neg h1] at h
  rcases em (dps * (1 + changeRate / 100) ^ n * (1 - taxRate / 100) = 0) with h2 | h2
  · rw [if_pos h2] at h
    cases h
  rw [if_neg h2] at h
  rcases em (priceKrw = 0) with h3 | h3
  · rw [if_pos h3] at h
    cases h
  rw [if_neg h3] at h
  rcases em ((changeRate + dps / 12 / priceKrw * 100) / 100 = 0) with h4 | h4
  · rw [if_pos h4] at h
    rcases em (n = 0) with h5 | h5
    · rw [if_pos h5] at h
      cases h
    rw [if_neg h5, Except.ok.injEq, GoalPlan.mk.injEq] at h
    obtain ⟨e1, e2, e3, e4, e5⟩ := h
    subst e1
    subst e2
    subst e3
    rw [if_pos (show changeRate / 100 + dps / 12 / priceKrw = 0 from by
      rw [← hr]; exact h4)]
  · rw [if_neg h4] at h
    rcases em ((1 + (changeRate + dps / 12 / priceKrw * 100) / 100) ^ n - 1 = 0) with
      h6 | h6
    · rw [if_pos h6] at h
      cases h
    rw [if_neg h6, Except.ok.injEq, GoalPlan.mk.injEq] at h
    obtain ⟨e1, e2, e3, e4, e5⟩ := h
    subst e1
    subst e2
    subst e3
    simp only [hr]
    rw [if_neg (show ¬changeRate / 100 + dps / 12 / priceKrw = 0 from by
      rw [← hr]; exact h4)]

/-- C4: whenever `solveGoal` computes a plan, its required level monthly
contribution is `neededFutureCapital / horizonMonths` when the total
monthly return rate is 0, and the future-value-of-annuity inversion
`neededFutureCapital * r / ((1 + r)^horizonMonths - 1)` otherwise, where
`r = growthRatePerPeriod/100 + (currentAnnualDividendPerShare/12)/currentPrice`. -/
theorem claim_C4_annuity_inversion (priceKrw dps changeRate taxRate : ℚ) (n : ℕ)
    (tgt : ℚ) (plan : GoalPlan)
    (h : solveGoal priceKrw dps changeRate taxRate n tgt = Except.ok plan) :
    plan.requiredMonthlyContribution =
      if changeRate / 100 + dps / 12 / priceKrw = 0 then
        plan.requiredFutureCapital / (n : ℚ)
      else
        plan.requiredFutureCapital * (changeRate / 100 + dps / 12 / priceKrw) /
          ((1 + (changeRate / 100 + dps / 12 / priceKrw)) ^ n - 1) :=
  solveGoal_savings_formula priceKrw dps changeRate taxRate n tgt plan h

theorem claim_C4_witness :
    (solveGoal 1 12 0 0 1 5 = Except.ok ⟨5, 5, 5, 1, 12⟩) ∧
    (GoalPlan.mk 5 5 5 1 12).requiredMonthlyContribution =
      (if (0 : ℚ) / 100 + (12 : ℚ) / 12 / 1 = 0 then
        (GoalPlan.mk 5 5 5 1 12).requiredFutureCapital / ((1 : ℕ) : ℚ)
      else
        (GoalPlan.mk 5 5 5 1 12).requiredFutureCapital *
            ((0 : ℚ) / 100 + (12 : ℚ) / 12 / 1) /
          ((1 + ((0 : ℚ) / 100 + (12 : ℚ) / 12 / 1)) ^ (1 : ℕ) - 1)) :=
  ⟨by norm_num [solveGoal],
    claim_C4_annuity_inversion 1 12 0 0 1 5 ⟨5, 5, 5, 1, 12⟩ (by norm_num [solveGoal])⟩

/-- With the monthly schedule, zero tax and zero growth, the simulated
asset follows the future-value-of-annuity closed form: after `i` months,
`shares * p * r = C * ((1 + r)^i - 1)` where `r = (dps/12)/p` and `C` is
the monthly contribution (initial capital 0). -/
theorem simState_annuity_closed_form (dps priceKrw C : ℚ) (hp : priceKrw ≠ 0) (i : ℕ) :
    (simState (mkSimConfig Freq.monthly dps 0 0 C) 0 priceKrw i).shares * priceKrw *
      (dps / 12 / priceKrw) =
      C * ((1 + dps / 12 / priceKrw) ^ i - 1) := by
  induction i with
  | zero => simp [simState]
  | succ k ih =>
    have hpk : (simState (mkSimConfig Freq.monthly dps 0 0 C) 0 priceKrw k).price =
        priceKrw := by
      rw [simState_price]
      norm_num [mkSimConfig]
    have hstep : (simState (mkSimConfig Freq.monthly dps 0 0 C) 0 priceKrw (k + 1)).shares =
        (simState (mkSimConfig Freq.monthly dps 0 0 C) 0 priceKrw k).shares +
          ((simState (mkSimConfig Freq.monthly dps 0 0 C) 0 priceKrw k).shares * (dps / 12) +
            C) / priceKrw := by
      show (simStep (mkSimConfig Freq.monthly dps 0 0 C) (k + 1)
        (simState (mkSimConfig Freq.monthly dps 0 0 C) 0 priceKrw k)).shares = _
      simp only [simStep]
      rw [hpk]
      norm_num [mkSimConfig, isWeeklyMode, freqMap, divPerPayoutKrw, Nat.mod_one]
    rw [hstep]
    have expand : ((simState (mkSimConfig Freq.monthly dps 0 0 C) 0 priceKrw k).shares +
          ((simState (mkSimConfig Freq.monthly dps 0 0 C) 0 priceKrw k).shares * (dps / 12) +
            C) / priceKrw) * priceKrw * (dps / 12 / priceKrw) =
        ((simState (mkSimConfig Freq.monthly dps 0 0 C) 0 priceKrw k).shares * priceKrw *
          (dps / 12 / priceKrw)) * (1 + dps / 12 / priceKrw) + C * (dps / 12 / priceKrw) := by
      field_simp
      ring
    rw [expand, ih, pow_succ]
    ring

/-- C3 (amended): with zero tax, zero growth, positive price and annual
dividend per share, a horizon ≥ 1 and the monthly schedule, running
`solveGoal` and then the projection with initial capital 0 and the solved
monthly contribution reproduces the plan's required future capital exactly:
the exact final asset value `shares * price` (its integer truncation is
what the recorded series stores) equals `requiredFutureCapital`, hence is
within every positive relative tolerance, in particular 1%. -/
theorem claim_C3_roundtrip_zero_tax_zero_growth (priceKrw dps tgt : ℚ) (n : ℕ)
    (plan : GoalPlan) (hp : 0 < priceKrw) (hd : 0 < dps) (hn : 1 ≤ n)
    (h : solveGoal priceKrw dps 0 0 n tgt = Except.ok plan) :
    (simState (mkSimConfig Freq.monthly dps 0 0 plan.requiredMonthlyContribution)
        0 priceKrw n).shares *
      (simState (mkSimConfig Freq.monthly dps 0 0 plan.requiredMonthlyContribution)
        0 priceKrw n).price = plan.requiredFutureCapital := by
  have hp0 : priceKrw ≠ 0 := ne_of_gt hp
  have hrpos : 0 < dps / 12 / priceKrw := div_pos (by positivity) hp
  have hrne : dps / 12 / priceKrw ≠ 0 := ne_of_gt hrpos
  have hpow : (1 + dps / 12 / priceKrw) ^ n - 1 ≠ 0 := by
    have h1 : (1 : ℚ) < 1 + dps / 12 / priceKrw := by linarith
    have h2 : (1 : ℚ) < (1 + dps / 12 / priceKrw) ^ n := one_lt_pow₀ h1 (by omega)
    linarith
  have hC : plan.requiredMonthlyContribution =
      plan.requiredFutureCapital * (dps / 12 / priceKrw) /
        ((1 + dps / 12 / priceKrw) ^ n - 1) := by
    have hform := solveGoal_savings_formula priceKrw dps 0 0 n tgt plan h
    have hzero : (0 : ℚ) / 100 + dps / 12 / priceKrw = dps / 12 / priceKrw := by
      norm_num
    rw [hzero] at hform
    rw [if_neg hrne] at hform
    exact hform
  have hpn : (simState (mkSimConfig Freq.monthly dps 0 0
      plan.requiredMonthlyContribution) 0 priceKrw n).price = priceKrw := by
    rw [simState_price]
    norm_num [mkSimConfig]
  have hkey := simState_annuity_closed_form dps priceKrw
    plan.requiredMonthlyContribution hp0 n
  conv at hkey => rhs; rw [hC]
  rw [div_mul_cancel₀ _ hpow] at hkey
  rw [hpn]
  exact mul_right_cancel₀ hrne hkey

theorem claim_C3_roundtrip_witness :
    (simState (mkSimConfig Freq.monthly 12 0 0
        (GoalPlan.mk 5 5 5 1 12).requiredMonthlyContribution) 0 1 1).shares *
      (simState (mkSimConfig Freq.monthly 12 0 0
        (GoalPlan.mk 5 5 5 1 12).requiredMonthlyContribution) 0 1 1).price =
      (GoalPlan.mk 5 5 5 1 12).requiredFutureCapital :=
  claim_C3_roundtrip_zero_tax_zero_growth 1 12 5 1 ⟨5, 5, 5, 1, 12⟩
    (by norm_num) (by norm_num) (by norm_num) (by norm_num [solveGoal])

/-- C3 as stated is false: with price 10000, annual dividend per share
12000 (a 10% monthly yield), zero growth, the default 15% tax, a 12-month
horizon and a 1,000,000-won monthly income target, `solveGoal` returns a
plan, yet projecting with that plan's contribution (monthly schedule,
initial capital 0, same snapshot/tax/horizon) ends at a recorded final
asset of 10,755,149 — more than 1% below the plan's required future
capital 200000000/17 ≈ 11,764,705.88 (the solver's annuity rate ignores
the dividend tax that the simulation withholds). -/
theorem claim_C3_counterexample :
    (solveGoal 10000 12000 0 15 12 1000000).map GoalPlan.requiredMonthlyContribution =
      Except.ok (20000000000000000000 / 36353282404257 : ℚ) ∧
    (solveGoal 10000 12000 0 15 12 1000000).map GoalPlan.requiredFutureCapital =
      Except.ok (200000000 / 17 : ℚ) ∧
    finalAssetOf (project (mkSimConfig Freq.monthly 12000 0 15
      (20000000000000000000 / 36353282404257 : ℚ)) 0 10000 12) = 10755149 ∧
    |(10755149 : ℚ) - 200000000 / 17| > (200000000 / 17 : ℚ) / 100 := by
  refine ⟨by norm_num [solveGoal, Except.map], by norm_num [solveGoal, Except.map], ?_,
    by rw [abs_of_nonpos (by norm_num)]; norm_num⟩
  have hok := project_eq_ok (mkSimConfig Freq.monthly 12000 0 15
      (20000000000000000000 / 36353282404257 : ℚ)) 0 10000 12
    (by norm_num) (by norm_num [mkSimConfig])
  rw [hok]
  show (projectResult (mkSimConfig Freq.monthly 12000 0 15
    (20000000000000000000 / 36353282404257 : ℚ)) 0 10000 12).assetSeries.getLastD 0 =
    10755149
  simp only [projectResult]
  rw [getLastD_map_range]
  have hq : (simState (mkSimConfig Freq.monthly 12000 0 15
        (20000000000000000000 / 36353282404257 : ℚ)) 0 10000 12).shares *
      (simState (mkSimConfig Freq.monthly 12000 0 15
        (20000000000000000000 / 36353282404257 : ℚ)) 0 10000 12).price =
      (3421954151813214729653549 : ℚ) / 318168898991104000 := by
    norm_num [simState, simStep, mkSimConfig, divPerPayoutKrw, freqMap, isWeeklyMode]
  rw [assetAt, hq, truncQ, if_pos (by norm_num)]
  rw [Int.floor_eq_iff]
  constructor
  · norm_num
  · norm_num
